import Mathlib

/-!
Shallow embedding of the split-payment reconciliation engine of
`src/components/PaymentModal.tsx`.  Amounts are modelled as exact rationals
(the spec mandates exact decimal arithmetic for Money); `parseFloat` of a
raw input field is abstracted as an `Option ℚ` (`none` models `NaN`).
-/

namespace Settle

/-- Payment method: the source's `'cash' | 'card' | 'upi' | 'wallet'` union. -/
inductive Method
  | cash
  | card
  | upi
  | wallet
deriving DecidableEq, Repr

/-- Wallet balance snapshot, from the `WalletBalance` interface. -/
structure WalletBalance where
  total : ℚ
  rewardPoints : ℚ
  refundBalance : ℚ
deriving DecidableEq, Repr

/-- One admitted payment entry, from the `Payment` interface.  The optional
metadata fields are set only for the method that carries them, exactly as the
object spreads in `addPayment` do. -/
structure Payment where
  id : String
  method : Method
  amount : ℚ
  details : String
  cardType : Option String
  lastFour : Option String
  upiId : Option String
deriving DecidableEq, Repr

/-- Validation failures surfaced as destructive toasts in the source,
identified by toast title. -/
inductive ValidationError
  | invalidAmount
  | insufficientWalletBalance
  | exceedsRemainingBalance
  | missingCardType
deriving DecidableEq, Repr

/-- Failure of `confirmPayment`: the source only rejects when a balance is
still outstanding (toast "Payment Incomplete"); it keeps no confirmed flag. -/
inductive ConfirmError
  | balanceNotSettled (remaining : ℚ)
deriving DecidableEq, Repr

/-- Engine state: the invoice total and wallet snapshot handed to the modal,
plus the `payments` list state.  `totalPaid` and `remainingBalance` are
derived, as in the source. -/
structure EngineState where
  totalAmount : ℚ
  walletBalance : WalletBalance
  payments : List Payment
deriving DecidableEq, Repr

/-- A candidate entry: the committed form fields consumed by `addPayment`.
`amount` and `redeemAmount` hold the `parseFloat` of the respective input
fields (`none` for a non-numeric input). -/
structure Candidate where
  activeMethod : Method
  amount : Option ℚ
  redeemAmount : Option ℚ
  cardType : String
  lastFour : String
  upiId : String
deriving DecidableEq, Repr

/-- `payments.reduce((sum, payment) => sum + payment.amount, 0)`. -/
def totalPaid (payments : List Payment) : ℚ :=
  payments.foldl (fun sum p => sum + p.amount) 0

/-- `Math.max(0, totalAmount - totalPaid)`. -/
def remainingBalance (s : EngineState) : ℚ :=
  max 0 (s.totalAmount - totalPaid s.payments)

/-- `validateWalletAmount`: the cascade of checks for a wallet redemption,
returning the first failing diagnosis (`none` = valid). -/
def validateWalletAmount (wb : WalletBalance) (remaining : ℚ) (amt : Option ℚ) :
    Option ValidationError :=
  match amt with
  | none => some ValidationError.invalidAmount
  | some numAmount =>
    if numAmount ≤ 0 then some ValidationError.invalidAmount
    else if wb.total < numAmount then some ValidationError.insufficientWalletBalance
    else if remaining < numAmount then some ValidationError.exceedsRemainingBalance
    else none

/-- `validateAmount`: the cascade of checks for a non-wallet amount. -/
def validateAmount (remaining : ℚ) (amt : Option ℚ) : Option ValidationError :=
  match amt with
  | none => some ValidationError.invalidAmount
  | some numAmount =>
    if numAmount ≤ 0 then some ValidationError.invalidAmount
    else if remaining < numAmount then some ValidationError.exceedsRemainingBalance
    else none

/-- Wallet redemption decomposition, from the two lines in `addPayment`:
`pointsUsed = Math.min(numAmount, rewardPoints)`, `refundUsed = numAmount - pointsUsed`. -/
def decompose (wb : WalletBalance) (amount : ℚ) : ℚ × ℚ :=
  let pointsUsed := min amount wb.rewardPoints
  (pointsUsed, amount - pointsUsed)

/-- The wallet branch of the `details` template literal. -/
def walletDetails (wb : WalletBalance) (numAmount : ℚ) : String :=
  let pointsUsed := (decompose wb numAmount).1
  let refundUsed := (decompose wb numAmount).2
  if 0 < pointsUsed ∧ 0 < refundUsed then
    toString pointsUsed ++ " pts + ₹" ++ toString refundUsed ++ " refund used"
  else if 0 < pointsUsed then
    toString pointsUsed ++ " pts used"
  else
    "₹" ++ toString refundUsed ++ " refund used"

/-- The `details` switch of `addPayment` (string construction only; the
card-type guard is handled in `addPayment` itself). -/
def mkDetails (s : EngineState) (c : Candidate) (numAmount : ℚ) : String :=
  match c.activeMethod with
  | Method.card => c.cardType ++ (if c.lastFour ≠ "" then " ****" ++ c.lastFour else "")
  | Method.upi => c.upiId
  | Method.wallet => walletDetails s.walletBalance numAmount
  | Method.cash => ""

/-- The `newPayment` object literal of `addPayment`: metadata spreads apply
only to the matching method. -/
def newPaymentOf (s : EngineState) (c : Candidate) (newId : String) (numAmount : ℚ) : Payment :=
  { id := newId
    method := c.activeMethod
    amount := numAmount
    details := mkDetails s c numAmount
    cardType := if c.activeMethod = Method.card then some c.cardType else none
    lastFour := if c.activeMethod = Method.card then some c.lastFour else none
    upiId := if c.activeMethod = Method.upi then some c.upiId else none }

/-- `addPayment`: validate the candidate against the current state, then
append the constructed entry.  `newId` stands for `Date.now().toString()`,
an input from the environment.  An early `return` after a destructive toast
is modelled as `Except.error`. -/
def addPayment (s : EngineState) (c : Candidate) (newId : String) :
    Except ValidationError EngineState :=
  let paymentAmount := if c.activeMethod = Method.wallet then c.redeemAmount else c.amount
  match (if c.activeMethod = Method.wallet then
           validateWalletAmount s.walletBalance (remainingBalance s) paymentAmount
         else
           validateAmount (remainingBalance s) paymentAmount) with
  | some e => Except.error e
  | none =>
    match paymentAmount with
    | none => Except.error ValidationError.invalidAmount
    | some numAmount =>
      if c.activeMethod = Method.card ∧ c.cardType = "" then
        Except.error ValidationError.missingCardType
      else
        Except.ok { s with payments := s.payments ++ [newPaymentOf s c newId numAmount] }

/-- `deletePayment`: `prev.filter(p => p.id !== id)`; a no-op when the id is
not present. -/
def deletePayment (s : EngineState) (id : String) : EngineState :=
  { s with payments := s.payments.filter (fun p => p.id != id) }

/-- `confirmPayment`: reject with the outstanding balance when positive,
otherwise hand the payments list to `onPaymentComplete`.  The source keeps
no confirmed flag and does not modify `payments` here. -/
def confirmPayment (s : EngineState) : Except ConfirmError (List Payment) :=
  if 0 < remainingBalance s then
    Except.error (ConfirmError.balanceNotSettled (remainingBalance s))
  else
    Except.ok s.payments

/-- One UI event against the engine: an attempted admission (with the id the
environment would mint) or a removal. -/
inductive Event
  | add (c : Candidate) (newId : String)
  | delete (id : String)
deriving DecidableEq, Repr

/-- The state transition of one event: a failed admission leaves the state
unchanged (the source returns before `setPayments`). -/
def step (s : EngineState) (e : Event) : EngineState :=
  match e with
  | Event.add c newId =>
    match addPayment s c newId with
    | Except.ok s' => s'
    | Except.error _ => s
  | Event.delete id => deletePayment s id

/-- The modal's initial state: empty payments list. -/
def init (totalAmount : ℚ) (wb : WalletBalance) : EngineState :=
  ⟨totalAmount, wb, []⟩

/-- Run a sequence of events from a state. -/
def run (s : EngineState) (es : List Event) : EngineState :=
  es.foldl step s

/-- The ids minted for the add events of a trace, in order. -/
def addIds : List Event → List String :=
  List.filterMap (fun e => match e with
    | Event.add _ newId => some newId
    | Event.delete _ => none)

/-- The ids of the entries currently held by the engine. -/
def ids (s : EngineState) : List String :=
  s.payments.map (fun p => p.id)

/-- A cash candidate with an already-parsed amount. -/
def cashCandidate (a : ℚ) : Candidate :=
  ⟨Method.cash, some a, none, "", "", ""⟩

/-- A wallet candidate with an already-parsed redeem amount. -/
def walletCandidate (a : ℚ) : Candidate :=
  ⟨Method.wallet, none, some a, "", "", ""⟩

lemma totalPaid_foldl (l : List Payment) (a : ℚ) :
    l.foldl (fun sum p => sum + p.amount) a = a + totalPaid l := by
  induction l generalizing a with
  | nil => simp [totalPaid]
  | cons p l ih =>
    show l.foldl (fun sum q => sum + q.amount) (a + p.amount) = a + totalPaid (p :: l)
    have hpl : totalPaid (p :: l) = (0 + p.amount) + totalPaid l := by
      show l.foldl (fun sum q => sum + q.amount) (0 + p.amount) = (0 + p.amount) + totalPaid l
      exact ih (0 + p.amount)
    rw [ih (a + p.amount), hpl]
    ring

lemma totalPaid_cons (p : Payment) (l : List Payment) :
    totalPaid (p :: l) = p.amount + totalPaid l := by
  show l.foldl (fun sum q => sum + q.amount) (0 + p.amount) = p.amount + totalPaid l
  rw [totalPaid_foldl]
  ring

lemma totalPaid_append (l₁ l₂ : List Payment) :
    totalPaid (l₁ ++ l₂) = totalPaid l₁ + totalPaid l₂ := by
  show (l₁ ++ l₂).foldl (fun sum q => sum + q.amount) 0 = totalPaid l₁ + totalPaid l₂
  rw [List.foldl_append, totalPaid_foldl]
  rfl

lemma totalPaid_eq_sum (l : List Payment) :
    totalPaid l = (l.map (fun p => p.amount)).sum := by
  induction l with
  | nil => simp [totalPaid]
  | cons p l ih => rw [totalPaid_cons, List.map_cons, List.sum_cons, ih]

lemma remainingBalance_nonneg (s : EngineState) : 0 ≤ remainingBalance s :=
  le_max_left 0 _

/-- Inversion of a successful admission: the candidate's relevant field
parsed to a positive amount within the remaining balance (and, for a wallet
candidate, within the wallet total), and the state grew by exactly the
constructed entry. -/
lemma addPayment_ok_inv (s : EngineState) (c : Candidate) (i : String) (s' : EngineState)
    (h : addPayment s c i = Except.ok s') :
    ∃ a : ℚ,
      (if c.activeMethod = Method.wallet then c.redeemAmount else c.amount) = some a ∧
      0 < a ∧ a ≤ remainingBalance s ∧
      (c.activeMethod = Method.wallet → a ≤ s.walletBalance.total) ∧
      s' = { s with payments := s.payments ++ [newPaymentOf s c i a] } := by
  obtain ⟨m, amt, ramt, ct, lf, up⟩ := c
  cases m with
  | cash =>
    cases amt with
    | none => simp [addPayment, validateAmount] at h
    | some a =>
      by_cases h0 : a ≤ 0
      · simp [addPayment, validateAmount, h0] at h
      by_cases h1 : remainingBalance s < a
      · simp [addPayment, validateAmount, h0, h1] at h
      refine ⟨a, by simp, lt_of_not_ge h0, le_of_not_lt h1, by intro hw; exact absurd hw (by simp), ?_⟩
      simp [addPayment, validateAmount, h0, h1] at h
      exact h.symm
  | upi =>
    cases amt with
    | none => simp [addPayment, validateAmount] at h
    | some a =>
      by_cases h0 : a ≤ 0
      · simp [addPayment, validateAmount, h0] at h
      by_cases h1 : remainingBalance s < a
      · simp [addPayment, validateAmount, h0, h1] at h
      refine ⟨a, by simp, lt_of_not_ge h0, le_of_not_lt h1, by intro hw; exact absurd hw (by simp), ?_⟩
      simp [addPayment, validateAmount, h0, h1] at h
      exact h.symm
  | card =>
    cases amt with
    | none => simp [addPayment, validateAmount] at h
    | some a =>
      by_cases h0 : a ≤ 0
      · simp [addPayment, validateAmount, h0] at h
      by_cases h1 : remainingBalance s < a
      · simp [addPayment, validateAmount, h0, h1] at h
      by_cases hct : ct = ""
      · simp [addPayment, validateAmount, h0, h1, hct] at h
      refine ⟨a, by simp, lt_of_not_ge h0, le_of_not_lt h1, by intro hw; exact absurd hw (by simp), ?_⟩
      simp [addPayment, validateAmount, h0, h1, hct] at h
      exact h.symm
  | wallet =>
    cases ramt with
    | none => simp [addPayment, validateWalletAmount] at h
    | some a =>
      by_cases h0 : a ≤ 0
      · simp [addPayment, validateWalletAmount, h0] at h
      by_cases hw : s.walletBalance.total < a
      · simp [addPayment, validateWalletAmount, h0, hw] at h
      by_cases h1 : remainingBalance s < a
      · simp [addPayment, validateWalletAmount, h0, hw, h1] at h
      refine ⟨a, by simp, lt_of_not_ge h0, le_of_not_lt h1, fun _ => le_of_not_lt hw, ?_⟩
      simp [addPayment, validateWalletAmount, h0, hw, h1] at h
      exact h.symm

/-- A cash candidate whose amount is positive and within the remaining
balance is always admitted. -/
lemma addPayment_cash_ok (s : EngineState) (a : ℚ) (i : String)
    (h0 : 0 < a) (h1 : a ≤ remainingBalance s) :
    addPayment s (cashCandidate a) i
      = Except.ok { s with payments := s.payments ++ [newPaymentOf s (cashCandidate a) i a] } := by
  simp [addPayment, cashCandidate, validateAmount, not_le.mpr h0, not_lt.mpr h1]

lemma step_totalAmount (s : EngineState) (e : Event) :
    (step s e).totalAmount = s.totalAmount := by
  cases e with
  | add c i =>
    cases h : addPayment s c i with
    | error e => simp [step, h]
    | ok s' =>
      obtain ⟨a, -, -, -, -, hs'⟩ := addPayment_ok_inv s c i s' h
      simp [step, h, hs']
  | delete i => simp [step, deletePayment]

lemma run_totalAmount (es : List Event) (s : EngineState) :
    (run s es).totalAmount = s.totalAmount := by
  induction es generalizing s with
  | nil => rfl
  | cons e es ih =>
    show (run (step s e) es).totalAmount = s.totalAmount
    rw [ih, step_totalAmount]

lemma totalPaid_nil : totalPaid [] = 0 := rfl

/-- Demo wallet snapshot (the component's default prop value). -/
def wbDemo : WalletBalance := ⟨350, 150, 200⟩

/-- Demo session: invoice total 2395 against the demo wallet. -/
def c1State : EngineState := init 2395 wbDemo

/-- Demo session after admitting a cash payment of 1000. -/
def c1State' : EngineState := ⟨2395, wbDemo, [⟨"1", Method.cash, 1000, "", none, none, none⟩]⟩

/-- C1: an admission never succeeds when the resulting total paid would
exceed the invoice total; the admitted entry's amount is at most the
remaining balance at the moment of admission. -/
theorem admit_never_overpays (s : EngineState) (c : Candidate) (i : String) (s' : EngineState)
    (h : addPayment s c i = Except.ok s') :
    totalPaid s'.payments ≤ s.totalAmount ∧
    ∃ p : Payment, s'.payments = s.payments ++ [p] ∧ p.amount ≤ remainingBalance s := by
  obtain ⟨a, hpa, ha0, har, hwt, hs'⟩ := addPayment_ok_inv s c i s' h
  subst hs'
  constructor
  · show totalPaid (s.payments ++ [newPaymentOf s c i a]) ≤ s.totalAmount
    have har' : a ≤ max 0 (s.totalAmount - totalPaid s.payments) := har
    have hle : a ≤ s.totalAmount - totalPaid s.payments := by
      rcases le_max_iff.mp har' with hc | hc
      · linarith
      · exact hc
    rw [totalPaid_append, totalPaid_cons, totalPaid_nil]
    have hamt : (newPaymentOf s c i a).amount = a := rfl
    rw [hamt]
    linarith
  · exact ⟨newPaymentOf s c i a, rfl, har⟩

/-- C1 witness: admitting cash 1000 into the demo session. -/
theorem admit_never_overpays_witness :
    totalPaid c1State'.payments ≤ c1State.totalAmount ∧
    ∃ p : Payment, c1State'.payments = c1State.payments ++ [p] ∧
      p.amount ≤ remainingBalance c1State :=
  admit_never_overpays c1State (cashCandidate 1000) "1" c1State'
    (by norm_num [addPayment, cashCandidate, validateAmount, remainingBalance, totalPaid,
      init, c1State, c1State', wbDemo, mkDetails, newPaymentOf]; rfl)

/-- C2: at every reachable state, total paid is the sum of the entry
amounts, the remaining balance is the invoice total minus total paid clamped
at zero, and the remaining balance is never negative. -/
theorem reachable_totals_invariant (T : ℚ) (wb : WalletBalance) (es : List Event) :
    totalPaid (run (init T wb) es).payments
      = ((run (init T wb) es).payments.map (fun p => p.amount)).sum ∧
    remainingBalance (run (init T wb) es)
      = max 0 (T - totalPaid (run (init T wb) es).payments) ∧
    0 ≤ remainingBalance (run (init T wb) es) := by
  refine ⟨totalPaid_eq_sum _, ?_, remainingBalance_nonneg _⟩
  show max 0 ((run (init T wb) es).totalAmount - _) = _
  rw [run_totalAmount]
  rfl

/-- C3: the wallet validation cascade applies its rules in a fixed order
with the first failing rule winning; in particular, when an amount exceeds
both the wallet total and the remaining balance, the diagnosis is
InsufficientWalletBalance, not ExceedsRemainingBalance. -/
theorem validateWallet_first_failure_wins (wb : WalletBalance) (r a : ℚ) :
    validateWalletAmount wb r none = some ValidationError.invalidAmount ∧
    (a ≤ 0 → validateWalletAmount wb r (some a) = some ValidationError.invalidAmount) ∧
    (0 < a → wb.total < a →
      validateWalletAmount wb r (some a) = some ValidationError.insufficientWalletBalance) ∧
    (0 < a → a ≤ wb.total → r < a →
      validateWalletAmount wb r (some a) = some ValidationError.exceedsRemainingBalance) ∧
    (0 < a → a ≤ wb.total → a ≤ r → validateWalletAmount wb r (some a) = none) := by
  refine ⟨rfl, ?_, ?_, ?_, ?_⟩
  · intro h0
    simp [validateWalletAmount, h0]
  · intro h0 hw
    simp [validateWalletAmount, not_le.mpr h0, hw]
  · intro h0 hw h1
    simp [validateWalletAmount, not_le.mpr h0, not_lt.mpr hw, h1]
  · intro h0 hw h1
    simp [validateWalletAmount, not_le.mpr h0, not_lt.mpr hw, not_lt.mpr h1]

/-- C3 witness: a wallet request of 400 against wallet total 350 and
remaining 500 reports InsufficientWalletBalance. -/
theorem validateWallet_first_failure_wins_witness :
    validateWalletAmount wbDemo 500 (some 400)
      = some ValidationError.insufficientWalletBalance :=
  (validateWallet_first_failure_wins wbDemo 500 400).2.2.1 (by norm_num)
    (by norm_num [wbDemo])

/-- Demo settled session: invoice total 300 fully covered by one cash entry. -/
def c4State : EngineState := ⟨300, wbDemo, [⟨"1", Method.cash, 300, "", none, none, none⟩]⟩

/-- C4 counterexample: on the settled demo state, confirm succeeds and — the
source keeping no confirmed flag and leaving the payments list untouched —
a further call on the unchanged engine state succeeds again and returns the
entry set a second time, instead of failing with AlreadyConfirmed. -/
theorem confirm_repeat_returns_again_cex :
    confirmPayment c4State = Except.ok c4State.payments ∧
    confirmPayment c4State = Except.ok c4State.payments := by
  have h : confirmPayment c4State = Except.ok c4State.payments := by
    norm_num [confirmPayment, remainingBalance, totalPaid, c4State]
  exact ⟨h, h⟩

/-- C4 amended: confirm succeeds exactly when the remaining balance is zero
and fails with BalanceNotSettled carrying the remaining balance otherwise;
the source has no confirmed flag, so a repeated confirm on the unchanged
state succeeds again (it never errors with an AlreadyConfirmed diagnosis,
which does not exist in the code). -/
theorem confirm_iff_settled (s : EngineState) :
    (0 < remainingBalance s →
      confirmPayment s = Except.error (ConfirmError.balanceNotSettled (remainingBalance s))) ∧
    (remainingBalance s = 0 → confirmPayment s = Except.ok s.payments) ∧
    ((∃ ps, confirmPayment s = Except.ok ps) ↔ remainingBalance s = 0) := by
  by_cases h : 0 < remainingBalance s
  · refine ⟨fun _ => by simp [confirmPayment, h], ?_, ?_⟩
    · intro h0
      rw [h0] at h
      exact absurd h (lt_irrefl 0)
    · constructor
      · rintro ⟨ps, hps⟩
        simp [confirmPayment, h] at hps
      · intro h0
        rw [h0] at h
        exact absurd h (lt_irrefl 0)
  · have h0 : remainingBalance s = 0 :=
      le_antisymm (not_lt.mp h) (remainingBalance_nonneg s)
    refine ⟨fun hc => absurd hc h, fun _ => by simp [confirmPayment, h], ?_⟩
    exact ⟨fun _ => h0, fun _ => ⟨s.payments, by simp [confirmPayment, h]⟩⟩

/-- C4 witness: confirm on the settled demo state returns its entries. -/
theorem confirm_iff_settled_witness :
    confirmPayment c4State = Except.ok c4State.payments :=
  (confirm_iff_settled c4State).2.1
    (by norm_num [remainingBalance, totalPaid, c4State])

/-- C5: wallet decomposition consumes points first: pointsUsed is the
minimum of the amount and the reward points, refundUsed is the rest. -/
theorem decompose_points_first (wb : WalletBalance) (a : ℚ) :
    (decompose wb a).1 = min a wb.rewardPoints ∧
    (decompose wb a).2 = a - min a wb.rewardPoints ∧
    (a ≤ wb.rewardPoints → decompose wb a = (a, 0)) ∧
    (wb.rewardPoints < a → a ≤ wb.rewardPoints + wb.refundBalance →
      decompose wb a = (wb.rewardPoints, a - wb.rewardPoints)) := by
  refine ⟨rfl, rfl, ?_, ?_⟩
  · intro h
    simp [decompose, min_eq_left h]
  · intro h _
    simp [decompose, min_eq_right (le_of_lt h)]

/-- C5 witness: decomposing 300 against 150 points and 200 refund balance
uses all 150 points and 150 of the refund balance. -/
theorem decompose_points_first_witness : decompose wbDemo 300 = (150, 150) := by
  have h := (decompose_points_first wbDemo 300).2.2.2 (by norm_num [wbDemo])
    (by norm_num [wbDemo])
  norm_num [wbDemo] at h
  exact h

/-- C6: details of an admitted entry, by method: card type with optional
masked last four; UPI reference verbatim; the three wallet decomposition
forms; empty for cash. -/
theorem admit_details_spec (s : EngineState) (c : Candidate) (i : String) (s' : EngineState)
    (h : addPayment s c i = Except.ok s') :
    ∃ p : Payment, s'.payments = s.payments ++ [p] ∧
      (c.activeMethod = Method.card →
        p.details = c.cardType ++ (if c.lastFour ≠ "" then " ****" ++ c.lastFour else "")) ∧
      (c.activeMethod = Method.upi → p.details = c.upiId) ∧
      (c.activeMethod = Method.cash → p.details = "") ∧
      (c.activeMethod = Method.wallet →
        (0 < (decompose s.walletBalance p.amount).1 →
         0 < (decompose s.walletBalance p.amount).2 →
          p.details = toString (decompose s.walletBalance p.amount).1 ++ " pts + ₹" ++
            toString (decompose s.walletBalance p.amount).2 ++ " refund used") ∧
        (0 < (decompose s.walletBalance p.amount).1 →
         (decompose s.walletBalance p.amount).2 = 0 →
          p.details = toString (decompose s.walletBalance p.amount).1 ++ " pts used") ∧
        ((decompose s.walletBalance p.amount).1 = 0 →
          p.details = "₹" ++ toString (decompose s.walletBalance p.amount).2 ++ " refund used")) := by
  obtain ⟨a, hpa, ha0, har, hwt, hs'⟩ := addPayment_ok_inv s c i s' h
  subst hs'
  have hamt : (newPaymentOf s c i a).amount = a := rfl
  refine ⟨newPaymentOf s c i a, rfl, ?_, ?_, ?_, ?_⟩
  · intro hm
    simp [newPaymentOf, mkDetails, hm]
  · intro hm
    simp [newPaymentOf, mkDetails, hm]
  · intro hm
    simp [newPaymentOf, mkDetails, hm]
  · intro hm
    have hdet : (newPaymentOf s c i a).details = walletDetails s.walletBalance a := by
      simp [newPaymentOf, mkDetails, hm]
    rw [hamt, hdet]
    unfold walletDetails
    refine ⟨fun h1 h2 => ?_, fun h1 h2 => ?_, fun h1 => ?_⟩
    · rw [if_pos ⟨h1, h2⟩]
    · rw [h2]
      simp [h1]
    · rw [h1]
      simp

/-- Demo session for scenarios B and C: invoice total 500 against the demo
wallet. -/
def c6State : EngineState := init 500 wbDemo

/-- Demo session after redeeming 300 from the wallet (scenario B). -/
def c6State' : EngineState :=
  ⟨500, wbDemo, [⟨"1", Method.wallet, 300, "150 pts + ₹150 refund used", none, none, none⟩]⟩

/-- C6 witness: a wallet redemption of 300 against 150 points yields the
mixed-form detail string. -/
theorem admit_details_spec_witness :
    ∃ p : Payment, c6State'.payments = c6State.payments ++ [p] ∧
      ((walletCandidate 300).activeMethod = Method.card →
        p.details = (walletCandidate 300).cardType ++
          (if (walletCandidate 300).lastFour ≠ "" then " ****" ++ (walletCandidate 300).lastFour
           else "")) ∧
      ((walletCandidate 300).activeMethod = Method.upi →
        p.details = (walletCandidate 300).upiId) ∧
      ((walletCandidate 300).activeMethod = Method.cash → p.details = "") ∧
      ((walletCandidate 300).activeMethod = Method.wallet →
        (0 < (decompose c6State.walletBalance p.amount).1 →
         0 < (decompose c6State.walletBalance p.amount).2 →
          p.details = toString (decompose c6State.walletBalance p.amount).1 ++ " pts + ₹" ++
            toString (decompose c6State.walletBalance p.amount).2 ++ " refund used") ∧
        (0 < (decompose c6State.walletBalance p.amount).1 →
         (decompose c6State.walletBalance p.amount).2 = 0 →
          p.details = toString (decompose c6State.walletBalance p.amount).1 ++ " pts used") ∧
        ((decompose c6State.walletBalance p.amount).1 = 0 →
          p.details = "₹" ++ toString (decompose c6State.walletBalance p.amount).2 ++
            " refund used")) :=
  admit_details_spec c6State (walletCandidate 300) "1" c6State'
    (by norm_num [addPayment, walletCandidate, validateWalletAmount, remainingBalance,
      totalPaid, init, c6State, c6State', wbDemo, mkDetails, walletDetails, decompose,
      newPaymentOf, min_def]; rfl)

/-- C7: a failed admission leaves the engine state — entries, total paid and
remaining balance — unchanged. -/
theorem failed_admit_leaves_state (s : EngineState) (c : Candidate) (i : String)
    (e : ValidationError) (h : addPayment s c i = Except.error e) :
    step s (Event.add c i) = s ∧
    remainingBalance (step s (Event.add c i)) = remainingBalance s ∧
    totalPaid (step s (Event.add c i)).payments = totalPaid s.payments := by
  have hs : step s (Event.add c i) = s := by simp [step, h]
  exact ⟨hs, by rw [hs], by rw [hs]⟩

/-- C7 witness: a wallet request of 400 against wallet total 350 (scenario
C) is rejected and the state is unchanged. -/
theorem failed_admit_leaves_state_witness :
    step c6State (Event.add (walletCandidate 400) "1") = c6State ∧
    remainingBalance (step c6State (Event.add (walletCandidate 400) "1"))
      = remainingBalance c6State ∧
    totalPaid (step c6State (Event.add (walletCandidate 400) "1")).payments
      = totalPaid c6State.payments :=
  failed_admit_leaves_state c6State (walletCandidate 400) "1"
    ValidationError.insufficientWalletBalance
    (by norm_num [addPayment, walletCandidate, validateWalletAmount, remainingBalance,
      totalPaid, init, c6State, wbDemo])

/-- C8: removing an admitted entry and re-admitting an entry of equal amount
restores the prior remaining balance exactly (amounts are exact rationals,
so no rounding drift arises). -/
theorem remove_readd_restores_remaining (s : EngineState) (l₁ l₂ : List Payment)
    (p : Payment) (i : String)
    (hsplit : s.payments = l₁ ++ p :: l₂)
    (hid : ∀ q ∈ l₁ ++ l₂, q.id ≠ p.id)
    (ha : 0 < p.amount)
    (hP : totalPaid s.payments ≤ s.totalAmount) :
    ∃ s₂, addPayment (deletePayment s p.id) (cashCandidate p.amount) i = Except.ok s₂ ∧
      remainingBalance s₂ = remainingBalance s := by
  have hfil : (deletePayment s p.id).payments = l₁ ++ l₂ := by
    have hf1 : l₁.filter (fun q => q.id != p.id) = l₁ :=
      List.filter_eq_self.mpr (fun q hq => by
        simpa [bne_iff_ne] using hid q (List.mem_append_left l₂ hq))
    have hf2 : l₂.filter (fun q => q.id != p.id) = l₂ :=
      List.filter_eq_self.mpr (fun q hq => by
        simpa [bne_iff_ne] using hid q (List.mem_append_right l₁ hq))
    have hdel : (deletePayment s p.id).payments
        = s.payments.filter (fun q => q.id != p.id) := rfl
    rw [hdel, hsplit, List.filter_append, List.filter_cons]
    simp [hf1, hf2]
  have hPsum : totalPaid s.payments = totalPaid l₁ + (p.amount + totalPaid l₂) := by
    rw [hsplit, totalPaid_append, totalPaid_cons]
  have htp1 : totalPaid (deletePayment s p.id).payments
      = totalPaid s.payments - p.amount := by
    rw [hfil, totalPaid_append, hPsum]
    ring
  have hrem1 : remainingBalance (deletePayment s p.id)
      = s.totalAmount - totalPaid s.payments + p.amount := by
    show max 0 ((deletePayment s p.id).totalAmount
        - totalPaid (deletePayment s p.id).payments) = _
    have htA : (deletePayment s p.id).totalAmount = s.totalAmount := rfl
    rw [htA, htp1, max_eq_right (by linarith)]
    ring
  have hle : p.amount ≤ remainingBalance (deletePayment s p.id) := by
    rw [hrem1]
    linarith
  refine ⟨_, addPayment_cash_ok (deletePayment s p.id) p.amount i ha hle, ?_⟩
  have htot : totalPaid ((deletePayment s p.id).payments
      ++ [newPaymentOf (deletePayment s p.id) (cashCandidate p.amount) i p.amount])
      = totalPaid s.payments := by
    rw [totalPaid_append, totalPaid_cons, totalPaid_nil, htp1]
    have hna : (newPaymentOf (deletePayment s p.id) (cashCandidate p.amount) i
        p.amount).amount = p.amount := rfl
    rw [hna]
    ring
  show max 0 (s.totalAmount - totalPaid ((deletePayment s p.id).payments
      ++ [newPaymentOf (deletePayment s p.id) (cashCandidate p.amount) i p.amount]))
    = remainingBalance s
  rw [htot]
  rfl

/-- Demo payment for the round-trip witness. -/
def c8Payment : Payment := ⟨"1", Method.cash, 100, "", none, none, none⟩

/-- Demo session holding one cash entry of 100 against total 300. -/
def c8State : EngineState := ⟨300, wbDemo, [c8Payment]⟩

/-- C8 witness: remove the cash entry of 100 and re-admit 100; remaining is
restored exactly. -/
theorem remove_readd_restores_remaining_witness :
    ∃ s₂, addPayment (deletePayment c8State c8Payment.id)
        (cashCandidate c8Payment.amount) "2" = Except.ok s₂ ∧
      remainingBalance s₂ = remainingBalance c8State :=
  remove_readd_restores_remaining c8State [] [] c8Payment "2" rfl (by simp)
    (by norm_num [c8Payment]) (by norm_num [totalPaid, c8State, c8Payment])

/-- A trace minting the same id "5" (the same `Date.now()` millisecond) for
two admissions. -/
def dupEvents : List Event :=
  [Event.add (cashCandidate 10) "5", Event.add (cashCandidate 30) "5"]

/-- C9 counterexample: two admissions in the same `Date.now()` millisecond
produce two distinct entries with equal ids, so the ids held by the engine
are not pairwise unique. -/
theorem duplicate_entry_ids_cex :
    ¬ (ids (run (init 100 wbDemo) dupEvents)).Nodup := by
  have e1 : addPayment (init 100 wbDemo) (cashCandidate 10) "5"
      = Except.ok ⟨100, wbDemo, [⟨"5", Method.cash, 10, "", none, none, none⟩]⟩ := by
    norm_num [addPayment, cashCandidate, validateAmount, remainingBalance, totalPaid,
      init, wbDemo, newPaymentOf, mkDetails]
    rfl
  have e2 : addPayment ⟨100, wbDemo, [⟨"5", Method.cash, 10, "", none, none, none⟩]⟩
      (cashCandidate 30) "5"
      = Except.ok ⟨100, wbDemo, [⟨"5", Method.cash, 10, "", none, none, none⟩,
          ⟨"5", Method.cash, 30, "", none, none, none⟩]⟩ := by
    norm_num [addPayment, cashCandidate, validateAmount, remainingBalance, totalPaid,
      wbDemo, newPaymentOf, mkDetails]
    rfl
  have hrun : run (init 100 wbDemo) dupEvents
      = ⟨100, wbDemo, [⟨"5", Method.cash, 10, "", none, none, none⟩,
          ⟨"5", Method.cash, 30, "", none, none, none⟩]⟩ := by
    simp [run, dupEvents, step, e1, e2]
  rw [hrun]
  decide

lemma run_ids_nodup (es : List Event) : ∀ s : EngineState,
    (ids s ++ addIds es).Nodup → (ids (run s es)).Nodup := by
  induction es with
  | nil =>
    intro s h
    simpa [run, addIds] using h
  | cons e es ih =>
    intro s h
    show (ids (run (step s e) es)).Nodup
    apply ih
    cases e with
    | add c i =>
      have hsplit : ids s ++ addIds (Event.add c i :: es)
          = ids s ++ i :: addIds es := by
        simp [addIds]
      rw [hsplit] at h
      cases haddp : addPayment s c i with
      | error err =>
        have hstep : step s (Event.add c i) = s := by simp [step, haddp]
        rw [hstep]
        exact List.Nodup.sublist
          (List.Sublist.append (List.Sublist.refl _) (List.sublist_cons_self i (addIds es))) h
      | ok s' =>
        obtain ⟨a, -, -, -, -, hs'⟩ := addPayment_ok_inv s c i s' haddp
        have hstep : step s (Event.add c i) = s' := by simp [step, haddp]
        rw [hstep, hs']
        have hideq : ids { s with payments := s.payments ++ [newPaymentOf s c i a] }
            = ids s ++ [i] := by
          simp [ids, newPaymentOf]
        rw [hideq, List.append_assoc, List.singleton_append]
        exact h
    | delete j =>
      have hsplit : ids s ++ addIds (Event.delete j :: es) = ids s ++ addIds es := by
        simp [addIds]
      rw [hsplit] at h
      have hsub : List.Sublist (ids (deletePayment s j)) (ids s) :=
        List.Sublist.map _ (List.filter_sublist _)
      exact List.Nodup.sublist (List.Sublist.append hsub (List.Sublist.refl _)) h

/-- C9 amended: the ids of the entries held by the engine are pairwise
unique provided every admission is minted a fresh id — i.e. the trace's
`Date.now()` values are pairwise distinct; the code itself does not enforce
this. -/
theorem entry_ids_unique_of_fresh (T : ℚ) (wb : WalletBalance) (es : List Event)
    (h : (addIds es).Nodup) :
    (ids (run (init T wb) es)).Nodup := by
  apply run_ids_nodup
  simpa [ids, init]

/-- C9 witness: a trace with distinct ids "1" and "2" yields pairwise
distinct entry ids. -/
theorem entry_ids_unique_of_fresh_witness :
    (ids (run (init 100 wbDemo)
      [Event.add (cashCandidate 10) "1", Event.add (cashCandidate 30) "2"])).Nodup :=
  entry_ids_unique_of_fresh 100 wbDemo
    [Event.add (cashCandidate 10) "1", Event.add (cashCandidate 30) "2"] (by decide)

/-- C10: wallet validation and admission never read `refundBalance`: two
states agreeing on everything but the wallet's refund balance validate a
wallet candidate identically and admit identical entries (same amount,
decomposition and detail string). -/
theorem wallet_refund_noninterference (T : ℚ) (ps : List Payment)
    (wb wb' : WalletBalance) (c : Candidate) (i : String)
    (ht : wb.total = wb'.total) (hr : wb.rewardPoints = wb'.rewardPoints)
    (hm : c.activeMethod = Method.wallet) :
    validateWalletAmount wb (remainingBalance ⟨T, wb, ps⟩) c.redeemAmount
      = validateWalletAmount wb' (remainingBalance ⟨T, wb', ps⟩) c.redeemAmount ∧
    Except.map EngineState.payments (addPayment ⟨T, wb, ps⟩ c i)
      = Except.map EngineState.payments (addPayment ⟨T, wb', ps⟩ c i) := by
  obtain ⟨t, rp, rb⟩ := wb
  obtain ⟨t', rp', rb'⟩ := wb'
  have ht' : t = t' := ht
  have hr' : rp = rp' := hr
  subst ht'
  subst hr'
  obtain ⟨m, amt, ramt, ct, lf, up⟩ := c
  have hm' : m = Method.wallet := hm
  subst hm'
  constructor
  · cases ramt with
    | none => rfl
    | some a => rfl
  · cases ramt with
    | none => rfl
    | some a =>
      by_cases h0 : a ≤ 0
      · simp [addPayment, validateWalletAmount, h0]
      by_cases hw : t < a
      · simp [addPayment, validateWalletAmount, h0, hw]
      by_cases h1 : max 0 (T - totalPaid ps) < a
      · simp [addPayment, validateWalletAmount, remainingBalance, h0, hw, h1]
      · simp [addPayment, validateWalletAmount, remainingBalance, h0, hw, h1,
          mkDetails, walletDetails, decompose, newPaymentOf, Except.map]

/-- C10 witness: wallets (350, 150, 200) and (350, 150, 999) validate and
admit a redemption of 300 identically. -/
theorem wallet_refund_noninterference_witness :
    validateWalletAmount wbDemo (remainingBalance ⟨500, wbDemo, []⟩)
        (walletCandidate 300).redeemAmount
      = validateWalletAmount ⟨350, 150, 999⟩
          (remainingBalance ⟨500, ⟨350, 150, 999⟩, []⟩) (walletCandidate 300).redeemAmount ∧
    Except.map EngineState.payments (addPayment ⟨500, wbDemo, []⟩ (walletCandidate 300) "1")
      = Except.map EngineState.payments
          (addPayment ⟨500, ⟨350, 150, 999⟩, []⟩ (walletCandidate 300) "1") :=
  wallet_refund_noninterference 500 [] wbDemo ⟨350, 150, 999⟩ (walletCandidate 300) "1"
    rfl rfl rfl

end Settle
